import Mathlib

/-!
Verification development for the dingo waveform-dataset compression layer
(`dingo/gw/waveform_dataset.py`): the `SVDBasis` class, the
`WaveformDataset` class (`load`, `__getitem__`, `truncate_dataset_domain`)
and the reduced-basis builder `generate_and_save_reduced_basis`.

Modelling conventions:
* numpy complex scalars are modelled by `CC := ℚ × ℚ` (real and imaginary
  part); floating-point rounding is not modelled, but the numpy dtype of
  every array is tracked as a tag (`DType`), since several properties are
  about precision bookkeeping rather than rounded values.
* a numpy 2-d array is `NpMat`: a row count, a column count, a total entry
  function and a dtype tag.  Slicing keeps the entry function and shrinks
  the dimension, exactly as the claims need.
* the external SVD routines (`sklearn.utils.extmath.randomized_svd` and
  `scipy.linalg.svd`) are oracles passed as function arguments; theorems
  that depend on their documented output shapes take that contract as a
  hypothesis (`rsvdContract`, `ssvdContract`).
* Python in-place mutation with exceptions is modelled by functions
  returning `state × Option errorMessage` (the state as mutated up to the
  raise), or `Except` where no mutation precedes the raise.
-/

/-- Complex scalar: real and imaginary part as exact rationals. -/
abbrev CC : Type := ℚ × ℚ

/-- Complex conjugate. -/
def conjCC (z : CC) : CC := (z.1, -z.2)

/-- Complex addition. -/
def ccAdd (a b : CC) : CC := (a.1 + b.1, a.2 + b.2)

/-- Complex multiplication. -/
def ccMul (a b : CC) : CC := (a.1 * b.1 - a.2 * b.2, a.1 * b.2 + a.2 * b.1)

/-- numpy dtype tags relevant to the code. -/
inductive DType where
  | f32
  | f64
  | c64
  | c128
deriving DecidableEq, Repr

/-- A numpy 2-d array: shape `(r, c)`, entry function and dtype tag. -/
structure NpMat where
  r : Nat
  c : Nat
  f : Nat → Nat → CC
  dt : DType

namespace NpMat

/-- `m.T.conj()`: conjugate transpose (dims swapped, entries conjugated,
dtype preserved). -/
def conjT (m : NpMat) : NpMat :=
  { r := m.c, c := m.r, f := fun i j => conjCC (m.f j i), dt := m.dt }

/-- `m.astype(d)` / `np.array(m, dtype=d)`: retag the dtype (rounding of
entries is abstracted away; no claim compares entries across a cast). -/
def astype (m : NpMat) (d : DType) : NpMat := { m with dt := d }

/-- Row slice `m[:n, :]`. -/
def rowsTake (m : NpMat) (n : Nat) : NpMat := { m with r := min n m.r }

/-- Column slice `m[:, :n]`. -/
def colsTake (m : NpMat) (n : Nat) : NpMat := { m with c := min n m.c }

@[simp] theorem conjT_r (m : NpMat) : m.conjT.r = m.c := rfl
@[simp] theorem conjT_c (m : NpMat) : m.conjT.c = m.r := rfl
@[simp] theorem conjT_dt (m : NpMat) : m.conjT.dt = m.dt := rfl
@[simp] theorem astype_dt (m : NpMat) (d : DType) : (m.astype d).dt = d := rfl
@[simp] theorem rowsTake_r (m : NpMat) (n : Nat) : (m.rowsTake n).r = min n m.r := rfl

/-- Conjugate transpose is an involution. -/
@[simp] theorem conjT_conjT (m : NpMat) : m.conjT.conjT = m := by
  cases m with
  | mk r c f dt =>
    simp only [conjT, mk.injEq, true_and, and_true]
    funext i j
    simp [conjCC]

end NpMat

/-- Result triple `(U, s, Vh)` of an external SVD routine. -/
structure SVDOut where
  U : NpMat
  s : List ℚ
  Vh : NpMat

/-- The mutable state of an `SVDBasis` object.  `__init__` sets `V`, `Vh`
and `n` to `None`; the `s` attribute does not exist before the first
`generate_basis`, modelled as `none`. -/
structure SVDState where
  V : Option NpMat
  Vh : Option NpMat
  n : Option Nat
  s : Option (List ℚ)

namespace SVDBasis

/-- The freshly-constructed `SVDBasis()` state. -/
def init : SVDState := { V := none, Vh := none, n := none, s := none }

/-- Shallow embedding of `SVDBasis.generate_basis`.  `rsvd` stands for
`randomized_svd(training_data, n, random_state=0)` and `ssvd` for
`scipy.linalg.svd(training_data, full_matrices=False)`; they are passed as
oracles.  Successful branches fully overwrite the stored `V, Vh, n, s`;
the unsupported-method branch raises before touching any state. -/
def generate_basis (rsvd : NpMat → Nat → SVDOut) (ssvd : NpMat → SVDOut)
    (training_data : NpMat) (n : Nat) (method : String) :
    Except String SVDState :=
  if method = "random" then
    let n1 := if n = 0 then min training_data.r training_data.c else n
    let o := rsvd training_data n1
    let Vh1 := o.Vh.astype .c64
    .ok { V := some Vh1.conjT, Vh := some Vh1, n := some n1, s := some o.s }
  else if method = "scipy" then
    let o := ssvd training_data
    let V0 := o.Vh.conjT
    if n = 0 ∨ V0.r < n then
      .ok { V := some V0, Vh := some o.Vh, n := some o.Vh.r, s := some o.s }
    else
      let Vh1 := o.Vh.rowsTake n
      .ok { V := some (V0.colsTake n), Vh := some Vh1, n := some Vh1.r,
            s := some o.s }
  else
    .error ("Unsupported SVD method: " ++ method ++ ".")

/-- Run `generate_basis` against a starting object state with Python
exception semantics: on success the state is fully replaced, on a raise the
object keeps its previous state and the message is surfaced. -/
def runGenerate (rsvd : NpMat → Nat → SVDOut) (ssvd : NpMat → SVDOut)
    (st : SVDState) (training_data : NpMat) (n : Nat) (method : String) :
    SVDState × Option String :=
  match generate_basis rsvd ssvd training_data n method with
  | .ok st2 => (st2, none)
  | .error e => (st, some e)

/-- `SVDBasis.from_file`: `V` is the loaded array; `Vh` and `n` are
rederived from it.  `s` is untouched. -/
def from_file (st : SVDState) (V : NpMat) : SVDState :=
  { st with V := some V, Vh := some V.conjT, n := some V.c }

/-- `SVDBasis.to_file`: returns the array written to disk, or `none` when
no basis was ever generated (the method returns without writing and without
raising; totality of this function models raise-freedom). -/
def to_file (st : SVDState) : Option NpMat := st.V

end SVDBasis

/-- Projection: stored rank of a successful `generate_basis` result. -/
def genN (e : Except String SVDState) : Option Nat :=
  match e with
  | .ok st => st.n
  | .error _ => none

/-- Projection: row count of the stored `Vh` (the actually retained rank). -/
def genVhRows (e : Except String SVDState) : Option Nat :=
  match e with
  | .ok st => st.Vh.map NpMat.r
  | .error _ => none

/-- Projection: length of the stored singular-value sequence. -/
def genSLen (e : Except String SVDState) : Option Nat :=
  match e with
  | .ok st => st.s.map List.length
  | .error _ => none

/-- Projection: dtype of the stored `Vh`. -/
def genVhDt (e : Except String SVDState) : Option DType :=
  match e with
  | .ok st => st.Vh.map NpMat.dt
  | .error _ => none

/-- Projection: dtype of the stored `V`. -/
def genVDt (e : Except String SVDState) : Option DType :=
  match e with
  | .ok st => st.V.map NpMat.dt
  | .error _ => none

/-- A rational list sorted in descending order. -/
def descendingQ (l : List ℚ) : Prop := l.Sorted (fun a b => b ≤ a)

instance (l : List ℚ) : Decidable (descendingQ l) := by
  unfold descendingQ List.Sorted
  infer_instance

/-- Documented output contract of
`randomized_svd(a, n_components=k, random_state=0)`: it returns
`min k (min S D)` singular values in descending order, and `Vh` with that
many rows and `D` columns. -/
def rsvdContract (td : NpMat) (k : Nat) (o : SVDOut) : Prop :=
  o.s.length = min k (min td.r td.c) ∧
  o.Vh.r = min k (min td.r td.c) ∧
  o.Vh.c = td.c ∧
  descendingQ o.s

instance (td : NpMat) (k : Nat) (o : SVDOut) : Decidable (rsvdContract td k o) := by
  unfold rsvdContract
  infer_instance

/-- Documented output contract of
`scipy.linalg.svd(a, full_matrices=False)`: `min S D` singular values in
descending order, `Vh` of shape `(min S D, D)`, with the input's dtype. -/
def ssvdContract (td : NpMat) (o : SVDOut) : Prop :=
  o.s.length = min td.r td.c ∧
  o.Vh.r = min td.r td.c ∧
  o.Vh.c = td.c ∧
  descendingQ o.s ∧
  o.Vh.dt = td.dt

instance (td : NpMat) (o : SVDOut) : Decidable (ssvdContract td o) := by
  unfold ssvdContract
  infer_instance

/-- A value produced by `np.array(x, dtype=d)` where `x` may be `None`:
numpy converts `None` to a 0-dimensional NaN scalar array for float/complex
dtypes (it does not raise). -/
inductive NpArr where
  | arr (m : NpMat)
  | nanScalar (dt : DType)

/-- `np.array(x, dtype=d)` applied to the optional `_Vh` attribute. -/
def npArrayCast (d : DType) : Option NpArr → NpArr
  | none => .nanScalar d
  | some (.arr m) => .arr (m.astype d)
  | some (.nanScalar _) => .nanScalar d

/-- A numpy 1-d array (one waveform row). -/
structure Vec where
  len : Nat
  g : Nat → CC
  dt : DType

/-- Entry `j` of the product `v @ m`. -/
def dotCC (v : Vec) (m : NpMat) (j : Nat) : CC :=
  (List.range v.len).foldr (fun k acc => ccAdd (ccMul (v.g k) (m.f k j)) acc)
    ((0 : ℚ), (0 : ℚ))

/-- `v @ a` for a 1-d `v` and a loaded `_Vh` value: matmul with a
0-dimensional operand raises, matmul with a 2-d matrix requires matching
inner dimensions. -/
def vecMatmul (v : Vec) (a : NpArr) : Except String Vec :=
  match a with
  | .nanScalar _ =>
      .error "ValueError: matmul: Input operand 1 does not have enough dimensions"
  | .arr m =>
      if v.len = m.r then
        .ok { len := m.c, g := fun j => dotCC v m j, dt := m.dt }
      else
        .error "ValueError: matmul: shape mismatch"

/-- Row `idx` of a 2-d array, as a 1-d array. -/
def rowVec (m : NpMat) (idx : Nat) : Vec :=
  { len := m.c, g := fun j => m.f idx j, dt := m.dt }

/-- Mutable state of a `WaveformDataset` object.  `τ` is the opaque type of
transform pipelines, `δ` the opaque type of domain descriptors (external
collaborator `dingo.gw.domains`), `π` the type of one parameter record. -/
structure WFDState (τ δ π : Type) where
  transform : Option τ
  single_precision : Bool
  parameter_samples : List π
  hc : NpMat
  hp : NpMat
  Vh : Option NpArr
  domain : δ
  is_truncated : Bool

/-- Contents of an HDF5 dataset file as read by `WaveformDataset.load`.
`polarization_keys` is the key list of the `waveform_polarizations` group in
the order `list(grp.keys())` enumerates it; `σ` is the opaque type of the
parsed `settings` attribute. -/
structure H5File (π σ : Type) where
  parameters : List π
  polarization_keys : List String
  h_cross : NpMat
  h_plus : NpMat
  rb_matrix_V : Option NpMat
  settings : σ

/-- Shallow embedding of `WaveformDataset.load` (as invoked by `__init__`,
which first sets `transform`, `_Vh = None` and `single_precision`).
`buildDomain` abstracts the external `build_domain` collaborator.  The key
assertion compares the enumerated key list with the literal list
`['h_cross', 'h_plus']`.  After the optional `rb_matrix_V` branch, the
final unconditional `np.array(self._Vh, dtype=dtype)` cast turns a missing
compression matrix (`None`) into a 0-d NaN scalar array. -/
def WaveformDataset.load {τ δ π σ : Type} (buildDomain : σ → δ)
    (transform : Option τ) (single_precision : Bool) (file : H5File π σ) :
    Except String (WFDState τ δ π) :=
  if file.polarization_keys = ["h_cross", "h_plus"] then
    let Vh0 : Option NpArr := file.rb_matrix_V.map (fun V => NpArr.arr V.conjT)
    let dtype := if single_precision then DType.c64 else DType.c128
    .ok { transform := transform
          single_precision := single_precision
          parameter_samples := file.parameters
          hc := file.h_cross.astype dtype
          hp := file.h_plus.astype dtype
          Vh := some (npArrayCast dtype Vh0)
          domain := buildDomain file.settings
          is_truncated := false }
  else
    .error "AssertionError: polarization group keys"

/-- One record returned by `WaveformDataset.__getitem__` (a nested
dictionary of parameters and the two polarizations), before or after the
transform pipeline. -/
structure DataItem (π : Type) where
  parameters : π
  h_plus : Vec
  h_cross : Vec

/-- Shallow embedding of `WaveformDataset.__getitem__`.  `applyT` abstracts
application of the opaque transform pipeline.  When `_Vh` is not `None`
(and after `load` it never is), both polarizations are right-multiplied by
it; a 0-d `_Vh` makes this matmul raise. -/
def WaveformDataset.getitem {τ δ π : Type} (applyT : τ → DataItem π → DataItem π)
    (st : WFDState τ δ π) (idx : Nat) : Except String (DataItem π) :=
  match st.parameter_samples.get? idx with
  | none => .error "IndexError: single positional indexer is out-of-bounds"
  | some p =>
      let hp0 := rowVec st.hp idx
      let hc0 := rowVec st.hc idx
      let compressed : Except String (DataItem π) :=
        match st.Vh with
        | none => .ok { parameters := p, h_plus := hp0, h_cross := hc0 }
        | some a => do
            let hp1 ← vecMatmul hp0 a
            let hc1 ← vecMatmul hc0 a
            .ok { parameters := p, h_plus := hp1, h_cross := hc1 }
      match compressed with
      | .error e => .error e
      | .ok item =>
          match st.transform with
          | some t => .ok (applyT t item)
          | none => .ok item

/-- Message of the double-truncation guard. -/
def msgAlreadyTruncated : String := "ValueError: Dataset is already truncated"

/-- Message of the uncompressed-truncation guard. -/
def msgNotImpl : String :=
  "NotImplementedError: Truncation of the dataset is currently only implemented for compressed polarization data."

/-- Shallow embedding of `WaveformDataset.truncate_dataset_domain`, with
Python in-place semantics: the returned state is the object's state at
return or at the raise, together with the raised message if any.
`setNewRange`, `lenD` and `truncData` abstract the external domain
collaborator (`set_new_range`, `len`, `truncate_data`).  Note the order of
the source: the already-truncated guard comes first, then
`set_new_range` is applied when `new_range` is given, and only then is the
compression matrix examined. -/
def WaveformDataset.truncate_dataset_domain {τ δ π ρ : Type}
    (setNewRange : δ → ρ → δ) (lenD : δ → Nat)
    (truncData : δ → Bool → NpMat → NpMat)
    (st : WFDState τ δ π) (new_range : Option ρ) :
    WFDState τ δ π × Option String :=
  if st.is_truncated then
    (st, some msgAlreadyTruncated)
  else
    let len_domain_original := lenD st.domain
    let st1 :=
      match new_range with
      | some r => { st with domain := setNewRange st.domain r }
      | none => st
    match st1.Vh with
    | none => (st1, some msgNotImpl)
    | some (.nanScalar _) => (st1, some "IndexError: tuple index out of range")
    | some (.arr m) =>
        if m.c = len_domain_original then
          ({ st1 with
              Vh := some (.arr (truncData st1.domain new_range.isSome m))
              is_truncated := true }, none)
        else
          (st1, some ("AssertionError: Compression matrix Vh with shape ("
            ++ toString m.r ++ ", " ++ toString m.c
            ++ ") is not compatible with the domain of length "
            ++ toString len_domain_original ++ "."))

/-- `rb_train_data[k][lower:lower+n] = rows`: numpy slice assignment into a
preallocated buffer. -/
def writeRows {α : Type} (buf : List (Option α)) (lower : Nat) (rows : List α) :
    List (Option α) :=
  buf.take lower ++ rows.map some ++ buf.drop (lower + rows.length)

/-- The accumulation loop of `generate_and_save_reduced_basis`, for one
channel.  `rem` is the part of the source the DataLoader has not yet
yielded; each iteration takes the next batch `rem.take bs`, copies its
first `min bs (N - lower)` rows at offset `lower`, and breaks once `N` rows
are collected.  The fuel argument only bounds the number of iterations; the
initial fuel `src.length` is never exhausted when `1 ≤ bs`. -/
def fillLoop {α : Type} (bs N : Nat) : Nat → List α → Nat → List (Option α) →
    List (Option α)
  | 0, _, _, buf => buf
  | _ + 1, [], _, buf => buf
  | fuel + 1, x :: xs, lower, buf =>
      let b := (x :: xs).take bs
      let n := min bs (N - lower)
      let buf2 := writeRows buf lower (b.take n)
      if lower + n = N then buf2
      else fillLoop bs N fuel ((x :: xs).drop bs) (lower + bs) buf2

/-- Shallow embedding of `generate_and_save_reduced_basis`'s dataset
interaction: the transform swap, the per-channel buffer fill, and the final
restoration of the original transform.  `srcs k` is the sequence of rows
the DataLoader yields for channel `k` (in deterministic source order) under
the swapped transform pipeline. -/
def generate_and_save_reduced_basis {τ δ π ι α : Type} (st : WFDState τ δ π)
    (transforms_rb : Option τ) (srcs : ι → List α) (N bs : Nat) :
    WFDState τ δ π × (ι → List (Option α)) :=
  let wfd_transform_original := st.transform
  let st1 := { st with transform := transforms_rb }
  let bufs := fun k =>
    fillLoop bs N (srcs k).length (srcs k) 0 (List.replicate N none)
  ({ st1 with transform := wfd_transform_original }, bufs)

/-- All-zero entry function for concrete example matrices. -/
def zf : Nat → Nat → CC := fun _ _ => ((0 : ℚ), (0 : ℚ))

/-- Concrete example matrix of a given shape and dtype. -/
def mat0 (r c : Nat) (d : DType) : NpMat := { r := r, c := c, f := zf, dt := d }

/-- A concrete strictly descending singular-value list of length `k`. -/
def oracleS (k : Nat) : List ℚ := (List.range k).map (fun i => ((k - i : Nat) : ℚ))

/-- A concrete oracle for `randomized_svd` satisfying `rsvdContract` at
every input. -/
def rsvd0 : NpMat → Nat → SVDOut := fun td k =>
  { U := mat0 td.r (min k (min td.r td.c)) .c128
    s := oracleS (min k (min td.r td.c))
    Vh := mat0 (min k (min td.r td.c)) td.c .c128 }

/-- A concrete oracle for `scipy.linalg.svd` satisfying `ssvdContract` at
every input. -/
def ssvd0 : NpMat → SVDOut := fun td =>
  { U := mat0 td.r (min td.r td.c) td.dt
    s := oracleS (min td.r td.c)
    Vh := mat0 (min td.r td.c) td.c td.dt }

/-- `true` on the `ok` constructor of an `Except`. -/
def isOkE {ε α : Type} (e : Except ε α) : Bool :=
  match e with
  | .ok _ => true
  | .error _ => false

/-- The invariant `Vh = conj(V)^T` (dimensions, entries and dtype tag) for
the state held inside a `generate_basis` result. -/
def vhConjRelation (e : Except String SVDState) : Prop :=
  match e with
  | .ok st => st.Vh = st.V.map NpMat.conjT
  | .error _ => True

/-- Column-slicing a conjugate transpose and transposing back is
row-slicing. -/
theorem conjT_colsTake (m : NpMat) (n : Nat) :
    ((m.conjT.colsTake n)).conjT = m.rowsTake n := by
  cases m with
  | mk r c f dt =>
    simp only [NpMat.conjT, NpMat.colsTake, NpMat.rowsTake, NpMat.mk.injEq,
      true_and, and_true]
    funext i j
    simp [conjCC]

/-- C4: `generate_basis` with a method string other than `'random'` or
`'scipy'` raises a `ValueError` whose message names the invalid method
value; the raise happens independently of the SVD oracles (hence before any
decomposition work) and the object's stored `V`, `Vh`, `n`, `s` are
unchanged. -/
theorem claim_C4 (rsvd : NpMat → Nat → SVDOut) (ssvd : NpMat → SVDOut)
    (st : SVDState) (td : NpMat) (n : Nat) (method : String)
    (h1 : method ≠ "random") (h2 : method ≠ "scipy") :
    SVDBasis.runGenerate rsvd ssvd st td n method =
      (st, some ("Unsupported SVD method: " ++ method ++ ".")) := by
  unfold SVDBasis.runGenerate SVDBasis.generate_basis
  simp [h1, h2]

/-- Witness for C4 at the concrete method string `"foo"`. -/
theorem claim_C4_witness :
    SVDBasis.runGenerate rsvd0 ssvd0 SVDBasis.init (mat0 2 3 .c128) 4 "foo" =
      (SVDBasis.init, some ("Unsupported SVD method: " ++ "foo" ++ ".")) :=
  claim_C4 rsvd0 ssvd0 SVDBasis.init (mat0 2 3 .c128) 4 "foo"
    (by decide) (by decide)

/-- C7: after every populating operation (`generate_basis` with
`'random'`, `generate_basis` with `'scipy'`, or `from_file`) the stored
pair satisfies `Vh = conj(V)^T`, as a structure equality that includes the
dimensions, every entry, and the dtype tag; each operation recomputes one
matrix from the other, for any SVD oracle output. -/
theorem claim_C7 (rsvd : NpMat → Nat → SVDOut) (ssvd : NpMat → SVDOut)
    (st : SVDState) (td m : NpMat) (n : Nat) :
    vhConjRelation (SVDBasis.generate_basis rsvd ssvd td n "random") ∧
    vhConjRelation (SVDBasis.generate_basis rsvd ssvd td n "scipy") ∧
    (SVDBasis.from_file st m).Vh = ((SVDBasis.from_file st m).V).map NpMat.conjT := by
  refine ⟨?_, ?_, ?_⟩
  · simp [vhConjRelation, SVDBasis.generate_basis]
  · unfold vhConjRelation SVDBasis.generate_basis
    by_cases h : n = 0 ∨ (ssvd td).Vh.c < n
    · simp [h]
    · simp [h, conjT_colsTake]
  · simp [SVDBasis.from_file]

/-- C8: `to_file` followed by `from_file` on the written matrix restores
`V` exactly, rederives `Vh` as its conjugate transpose and `n` as its
column count; and `to_file` on a never-populated basis writes nothing and
is not an error (totality of the model encodes raise-freedom). -/
theorem claim_C8 :
    (∀ (st st2 : SVDState) (v : NpMat), st.V = some v →
      SVDBasis.to_file st = some v ∧
      (SVDBasis.from_file st2 v).V = some v ∧
      (SVDBasis.from_file st2 v).Vh = some v.conjT ∧
      (SVDBasis.from_file st2 v).n = some v.c) ∧
    (∀ st : SVDState, st.V = none → SVDBasis.to_file st = none) := by
  constructor
  · intro st st2 v hv
    exact ⟨by simp [SVDBasis.to_file, hv], rfl, rfl, rfl⟩
  · intro st hv
    simp [SVDBasis.to_file, hv]

/-- A concrete `SVDBasis` state holding a basis matrix. -/
def stPop : SVDState :=
  { V := some (mat0 4 2 .c128), Vh := none, n := none, s := none }

/-- Witness for C8: a populated and an unpopulated concrete basis state. -/
theorem claim_C8_witness :
    (SVDBasis.to_file stPop = some (mat0 4 2 .c128) ∧
      (SVDBasis.from_file SVDBasis.init (mat0 4 2 .c128)).V = some (mat0 4 2 .c128) ∧
      (SVDBasis.from_file SVDBasis.init (mat0 4 2 .c128)).Vh = some (mat0 4 2 .c128).conjT ∧
      (SVDBasis.from_file SVDBasis.init (mat0 4 2 .c128)).n = some (mat0 4 2 .c128).c) ∧
    SVDBasis.to_file SVDBasis.init = none :=
  ⟨claim_C8.1 stPop SVDBasis.init (mat0 4 2 .c128) rfl,
    claim_C8.2 SVDBasis.init rfl⟩

/-- Concrete domain-collaborator: domains are naturals, `set_new_range`
replaces the domain by the requested range value. -/
def setRange0 : Nat → Nat → Nat := fun _ r => r

/-- Concrete domain length function. -/
def lenD0 : Nat → Nat := fun d => d

/-- Concrete `truncate_data` collaborator (identity). -/
def truncData0 : Nat → Bool → NpMat → NpMat := fun _ _ m => m

/-- A concrete dataset state with no active compression matrix and not yet
truncated. -/
def stC1 : WFDState Unit Nat Unit :=
  { transform := none, single_precision := true, parameter_samples := [()],
    hc := mat0 1 3 .c64, hp := mat0 1 3 .c64, Vh := none, domain := 0,
    is_truncated := false }

/-- C1 counterexample: on a dataset with no active compression matrix,
calling `truncate_dataset_domain` with a `new_range` raises the
not-implemented state error but only after `set_new_range` has already
mutated the domain descriptor: the failed call leaves the domain changed
(from 0 to 1), contradicting the claim that the domain is unchanged by a
failed state-error call even when `new_range` is supplied. -/
theorem claim_C1_counterexample :
    (WaveformDataset.truncate_dataset_domain setRange0 lenD0 truncData0 stC1
        (some 1)).2 = some msgNotImpl ∧
    (WaveformDataset.truncate_dataset_domain setRange0 lenD0 truncData0 stC1
        (some 1)).1.domain = 1 ∧
    stC1.domain = 0 :=
  ⟨rfl, rfl, rfl⟩

/-- C1 (amended): when `truncate_dataset_domain` fails with a state error,
the compression matrix and the truncation flag are unchanged, and the
error is the guard message; the domain descriptor is unchanged in the
already-truncated case and in the no-compression case without `new_range`,
but in the no-compression case with a supplied `new_range` the domain has
already been updated by `set_new_range` when the error is raised. -/
theorem claim_C1_amended {τ δ π ρ : Type} (setNR : δ → ρ → δ)
    (lenD : δ → Nat) (tD : δ → Bool → NpMat → NpMat)
    (st : WFDState τ δ π) (nr : Option ρ)
    (h : st.is_truncated = true ∨ st.Vh = none) :
    (WaveformDataset.truncate_dataset_domain setNR lenD tD st nr).2 =
      some (if st.is_truncated then msgAlreadyTruncated else msgNotImpl) ∧
    (WaveformDataset.truncate_dataset_domain setNR lenD tD st nr).1.Vh = st.Vh ∧
    (WaveformDataset.truncate_dataset_domain setNR lenD tD st nr).1.is_truncated
      = st.is_truncated ∧
    (WaveformDataset.truncate_dataset_domain setNR lenD tD st nr).1.domain =
      (match nr, st.is_truncated with
        | some r, false => setNR st.domain r
        | _, _ => st.domain) := by
  unfold WaveformDataset.truncate_dataset_domain
  rcases hb : st.is_truncated with _ | _
  · have hv : st.Vh = none := by
      rcases h with h | h
      · rw [hb] at h
        exact absurd h (by simp)
      · exact h
    cases nr with
    | none => simp [hb, hv]
    | some r => simp [hb, hv]
  · simp [hb]

/-- Witness for C1 (amended) at the concrete no-compression state with a
supplied new range. -/
theorem claim_C1_witness :
    (WaveformDataset.truncate_dataset_domain setRange0 lenD0 truncData0 stC1
        (some 1)).2 = some msgNotImpl ∧
    (WaveformDataset.truncate_dataset_domain setRange0 lenD0 truncData0 stC1
        (some 1)).1.Vh = stC1.Vh ∧
    (WaveformDataset.truncate_dataset_domain setRange0 lenD0 truncData0 stC1
        (some 1)).1.is_truncated = stC1.is_truncated ∧
    (WaveformDataset.truncate_dataset_domain setRange0 lenD0 truncData0 stC1
        (some 1)).1.domain = setRange0 stC1.domain 1 :=
  claim_C1_amended setRange0 lenD0 truncData0 stC1 (some 1) (Or.inr rfl)

/-- Concrete `build_domain` collaborator. -/
def bd0 : Unit → Nat := fun _ => 0

/-- A concrete file whose polarization group enumerates its two keys in the
order `h_plus, h_cross`: the key set is exactly the required one, but the
enumeration order differs from the literal list the code compares with. -/
def fileRev : H5File Unit Unit :=
  { parameters := [()], polarization_keys := ["h_plus", "h_cross"],
    h_cross := mat0 1 3 .c128, h_plus := mat0 1 3 .c128,
    rb_matrix_V := none, settings := () }

/-- C2 counterexample: a file whose polarization key set equals
`\x7bh_cross, h_plus\x7d` (witnessed by a permutation) but whose enumeration
order is reversed is rejected by `load`, so acceptance is not a function of
the key set alone. -/
theorem claim_C2_counterexample :
    fileRev.polarization_keys.Perm ["h_cross", "h_plus"] ∧
    isOkE (WaveformDataset.load (τ := Unit) bd0 none true fileRev) = false := by
  constructor
  · decide
  · rfl

/-- C2 (amended): `load` succeeds exactly when the enumerated key list of
the polarization group is the literal list `[h_cross, h_plus]` in that
order; hence both keys must be present and any extra key fails, but the
comparison is list equality (order-sensitive), which coincides with set
equality only for the alphabetical enumeration order HDF5 uses by
default. -/
theorem claim_C2_amended {τ δ π σ : Type} (bd : σ → δ) (tf : Option τ)
    (sp : Bool) (file : H5File π σ) :
    isOkE (WaveformDataset.load (τ := τ) bd tf sp file) = true ↔
      file.polarization_keys = ["h_cross", "h_plus"] := by
  unfold WaveformDataset.load
  by_cases h : file.polarization_keys = ["h_cross", "h_plus"] <;>
    simp [h, isOkE]

/-- C3: for a well-formed file with no `rb_matrix_V` entry, `load` does
succeed, but the unconditional `np.array(self._Vh, dtype=dtype)` cast turns
the absent compression matrix (`None`) into a 0-d NaN array, so
`__getitem__` takes the compression branch (`self._Vh is not None` holds)
and the matmul against a 0-d operand raises instead of returning the stored
full-length polarizations.  This contradicts the claim (and the spec's
declared intent that `rb_matrix_V` is optional), exposing a code bug. -/
theorem claim_C3 {τ δ π σ : Type} (bd : σ → δ)
    (applyT : τ → DataItem π → DataItem π) (tf : Option τ) (sp : Bool)
    (file : H5File π σ) (idx : Nat)
    (hk : file.polarization_keys = ["h_cross", "h_plus"])
    (hrb : file.rb_matrix_V = none)
    (hidx : idx < file.parameters.length) :
    isOkE (WaveformDataset.load (τ := τ) bd tf sp file) = true ∧
    (WaveformDataset.load (τ := τ) bd tf sp file).bind
        (fun st => WaveformDataset.getitem applyT st idx) =
      .error "ValueError: matmul: Input operand 1 does not have enough dimensions" := by
  constructor
  · simp [WaveformDataset.load, hk, isOkE]
  · have hget : file.parameters[idx]? = some (file.parameters[idx]) :=
      List.getElem?_eq_getElem hidx
    simp [WaveformDataset.load, hk, hrb, WaveformDataset.getitem, hget,
      npArrayCast, vecMatmul, Except.bind]
    rfl

/-- A concrete well-formed file with no `rb_matrix_V` entry. -/
def fileNoRb : H5File Unit Unit :=
  { parameters := [()], polarization_keys := ["h_cross", "h_plus"],
    h_cross := mat0 1 3 .c128, h_plus := mat0 1 3 .c128,
    rb_matrix_V := none, settings := () }

/-- Concrete transform application (identity). -/
def applyT0 : Unit → DataItem Unit → DataItem Unit := fun _ it => it

/-- Witness for C3 at the concrete no-compression file and index 0. -/
theorem claim_C3_witness :
    isOkE (WaveformDataset.load (τ := Unit) bd0 none true fileNoRb) = true ∧
    (WaveformDataset.load (τ := Unit) bd0 none true fileNoRb).bind
        (fun st => WaveformDataset.getitem applyT0 st 0) =
      .error "ValueError: matmul: Input operand 1 does not have enough dimensions" :=
  claim_C3 bd0 applyT0 none true fileNoRb 0 rfl rfl (by decide)

@[simp] theorem NpMat.astype_r (m : NpMat) (d : DType) : (m.astype d).r = m.r := rfl
@[simp] theorem NpMat.astype_c (m : NpMat) (d : DType) : (m.astype d).c = m.c := rfl
@[simp] theorem NpMat.rowsTake_dt (m : NpMat) (n : Nat) : (m.rowsTake n).dt = m.dt := rfl
@[simp] theorem NpMat.colsTake_dt (m : NpMat) (n : Nat) : (m.colsTake n).dt = m.dt := rfl

/-- Reduction of `generate_basis` at method `'random'`. -/
theorem generate_basis_random (rsvd : NpMat → Nat → SVDOut)
    (ssvd : NpMat → SVDOut) (td : NpMat) (n : Nat) :
    SVDBasis.generate_basis rsvd ssvd td n "random" =
      .ok { V := some (((rsvd td (if n = 0 then min td.r td.c else n)).Vh.astype .c64).conjT)
          , Vh := some ((rsvd td (if n = 0 then min td.r td.c else n)).Vh.astype .c64)
          , n := some (if n = 0 then min td.r td.c else n)
          , s := some (rsvd td (if n = 0 then min td.r td.c else n)).s } := rfl

/-- Reduction of `generate_basis` at method `'scipy'`. -/
theorem generate_basis_scipy (rsvd : NpMat → Nat → SVDOut)
    (ssvd : NpMat → SVDOut) (td : NpMat) (n : Nat) :
    SVDBasis.generate_basis rsvd ssvd td n "scipy" =
      if n = 0 ∨ (ssvd td).Vh.c < n then
        .ok { V := some (ssvd td).Vh.conjT, Vh := some (ssvd td).Vh,
              n := some (ssvd td).Vh.r, s := some (ssvd td).s }
      else
        .ok { V := some ((ssvd td).Vh.conjT.colsTake n),
              Vh := some ((ssvd td).Vh.rowsTake n),
              n := some ((ssvd td).Vh.rowsTake n).r, s := some (ssvd td).s } := rfl

/-- C5 counterexample: for a 2 x 3 training matrix and requested rank 5
(over the available rank 2), method `'random'` stores `n = 5` (the
requested value) while the retained basis `Vh` has only 2 rows, so the
stored `n` is neither the actual retained rank nor clamped. -/
theorem claim_C5_counterexample :
    rsvdContract (mat0 2 3 .c128) 5 (rsvd0 (mat0 2 3 .c128) 5) ∧
    genN (SVDBasis.generate_basis rsvd0 ssvd0 (mat0 2 3 .c128) 5 "random") =
      some 5 ∧
    genVhRows (SVDBasis.generate_basis rsvd0 ssvd0 (mat0 2 3 .c128) 5 "random") =
      some 2 := by
  refine ⟨by decide, rfl, rfl⟩

/-- C5 (amended): for `'scipy'` the stored `n` is the actual retained rank
(the sentinel 0 and any request above the available rank retain
everything); for `'random'` the stored `n` is the requested rank after
sentinel substitution (`0` becomes `min(S, D)`) with no clamping, while the
actual retained rank (rows of `Vh`) is `min(requested, min(S, D))` — the
two differ when the request exceeds the available rank. -/
theorem claim_C5_amended (rsvd : NpMat → Nat → SVDOut) (ssvd : NpMat → SVDOut)
    (td : NpMat) (n : Nat)
    (hr : rsvdContract td (if n = 0 then min td.r td.c else n)
      (rsvd td (if n = 0 then min td.r td.c else n)))
    (hs : ssvdContract td (ssvd td)) :
    genN (SVDBasis.generate_basis rsvd ssvd td n "random") =
      some (if n = 0 then min td.r td.c else n) ∧
    genVhRows (SVDBasis.generate_basis rsvd ssvd td n "random") =
      some (min (if n = 0 then min td.r td.c else n) (min td.r td.c)) ∧
    genN (SVDBasis.generate_basis rsvd ssvd td n "scipy") =
      some (if n = 0 then min td.r td.c else min n (min td.r td.c)) ∧
    genVhRows (SVDBasis.generate_basis rsvd ssvd td n "scipy") =
      genN (SVDBasis.generate_basis rsvd ssvd td n "scipy") := by
  have hrr := hr.2.1
  have hsr := hs.2.1
  have hsc := hs.2.2.1
  refine ⟨?_, ?_, ?_, ?_⟩
  · simp [generate_basis_random, genN]
  · simp [generate_basis_random, genVhRows, hrr]
  · rw [generate_basis_scipy]
    by_cases h0 : n = 0
    · simp [h0, genN, hsr]
    · by_cases hlt : (ssvd td).Vh.c < n
      · have hcond : n = 0 ∨ (ssvd td).Vh.c < n := Or.inr hlt
        rw [if_pos hcond]
        have hKc : min td.r td.c ≤ td.c := Nat.min_le_right _ _
        have hKn : min td.r td.c ≤ n := by
          rw [hsc] at hlt
          omega
        simp [genN, hsr, h0, Nat.min_eq_right hKn]
      · have hcond : ¬(n = 0 ∨ (ssvd td).Vh.c < n) := by
          push_neg
          exact ⟨h0, Nat.not_lt.mp hlt⟩
        rw [if_neg hcond]
        simp [genN, hsr, h0]
  · rw [generate_basis_scipy]
    by_cases hcond : n = 0 ∨ (ssvd td).Vh.c < n
    · simp [hcond, genN, genVhRows]
    · simp [hcond, genN, genVhRows]

/-- Witness for C5 (amended) at a concrete 2 x 3 matrix and request 5. -/
theorem claim_C5_witness :
    genN (SVDBasis.generate_basis rsvd0 ssvd0 (mat0 2 3 .c128) 5 "random") =
      some (if 5 = 0 then min (mat0 2 3 .c128).r (mat0 2 3 .c128).c else 5) ∧
    genVhRows (SVDBasis.generate_basis rsvd0 ssvd0 (mat0 2 3 .c128) 5 "random") =
      some (min (if 5 = 0 then min (mat0 2 3 .c128).r (mat0 2 3 .c128).c else 5)
        (min (mat0 2 3 .c128).r (mat0 2 3 .c128).c)) ∧
    genN (SVDBasis.generate_basis rsvd0 ssvd0 (mat0 2 3 .c128) 5 "scipy") =
      some (if 5 = 0 then min (mat0 2 3 .c128).r (mat0 2 3 .c128).c
        else min 5 (min (mat0 2 3 .c128).r (mat0 2 3 .c128).c)) ∧
    genVhRows (SVDBasis.generate_basis rsvd0 ssvd0 (mat0 2 3 .c128) 5 "scipy") =
      genN (SVDBasis.generate_basis rsvd0 ssvd0 (mat0 2 3 .c128) 5 "scipy") :=
  claim_C5_amended rsvd0 ssvd0 (mat0 2 3 .c128) 5 (by decide) (by decide)

/-- Whether the stored singular values of a `generate_basis` result are in
descending order. -/
def genSDesc (e : Except String SVDState) : Prop :=
  match e with
  | .ok st => descendingQ (st.s.getD [])
  | .error _ => True

/-- C6 counterexample: for a 3 x 3 training matrix and requested rank 2,
method `'scipy'` stores the truncated rank `n = 2` but keeps all 3
singular values, so the stored `s` does not have length `n`. -/
theorem claim_C6_counterexample :
    ssvdContract (mat0 3 3 .c128) (ssvd0 (mat0 3 3 .c128)) ∧
    genN (SVDBasis.generate_basis rsvd0 ssvd0 (mat0 3 3 .c128) 2 "scipy") =
      some 2 ∧
    genSLen (SVDBasis.generate_basis rsvd0 ssvd0 (mat0 3 3 .c128) 2 "scipy") =
      some 3 := by
  refine ⟨by decide, rfl, rfl⟩

/-- C6 (amended): the stored singular values are always in descending
order; their count equals `min(requested-after-sentinel, min(S, D))` for
`'random'` (which is the stored `n` only when the request is within the
available rank), while `'scipy'` always stores the full list of
`min(S, D)` singular values regardless of truncation. -/
theorem claim_C6_amended (rsvd : NpMat → Nat → SVDOut) (ssvd : NpMat → SVDOut)
    (td : NpMat) (n : Nat)
    (hr : rsvdContract td (if n = 0 then min td.r td.c else n)
      (rsvd td (if n = 0 then min td.r td.c else n)))
    (hs : ssvdContract td (ssvd td)) :
    genSLen (SVDBasis.generate_basis rsvd ssvd td n "random") =
      some (min (if n = 0 then min td.r td.c else n) (min td.r td.c)) ∧
    genSDesc (SVDBasis.generate_basis rsvd ssvd td n "random") ∧
    genSLen (SVDBasis.generate_basis rsvd ssvd td n "scipy") =
      some (min td.r td.c) ∧
    genSDesc (SVDBasis.generate_basis rsvd ssvd td n "scipy") := by
  refine ⟨?_, ?_, ?_, ?_⟩
  · simp [generate_basis_random, genSLen, hr.1]
  · simp [generate_basis_random, genSDesc, hr.2.2.2]
  · rw [generate_basis_scipy]
    by_cases hcond : n = 0 ∨ (ssvd td).Vh.c < n
    · simp [hcond, genSLen, hs.1]
    · simp [hcond, genSLen, hs.1]
  · rw [generate_basis_scipy]
    by_cases hcond : n = 0 ∨ (ssvd td).Vh.c < n
    · simp [hcond, genSDesc, hs.2.2.2.1]
    · simp [hcond, genSDesc, hs.2.2.2.1]

/-- Witness for C6 (amended) at a concrete 3 x 3 matrix and request 2. -/
theorem claim_C6_witness :
    genSLen (SVDBasis.generate_basis rsvd0 ssvd0 (mat0 3 3 .c128) 2 "random") =
      some (min (if 2 = 0 then min (mat0 3 3 .c128).r (mat0 3 3 .c128).c else 2)
        (min (mat0 3 3 .c128).r (mat0 3 3 .c128).c)) ∧
    genSDesc (SVDBasis.generate_basis rsvd0 ssvd0 (mat0 3 3 .c128) 2 "random") ∧
    genSLen (SVDBasis.generate_basis rsvd0 ssvd0 (mat0 3 3 .c128) 2 "scipy") =
      some (min (mat0 3 3 .c128).r (mat0 3 3 .c128).c) ∧
    genSDesc (SVDBasis.generate_basis rsvd0 ssvd0 (mat0 3 3 .c128) 2 "scipy") :=
  claim_C6_amended rsvd0 ssvd0 (mat0 3 3 .c128) 2 (by decide) (by decide)

/-- C10: method `'random'` always stores the basis (`Vh` and `V`) tagged
complex64 regardless of the training data's dtype, while `'scipy'` stores
the dtype produced by the dense decomposition, which follows the input's
dtype; hence for complex128 input the two methods store bases of different
precision. -/
theorem claim_C10 (rsvd : NpMat → Nat → SVDOut) (ssvd : NpMat → SVDOut)
    (td : NpMat) (n : Nat) (hdt : (ssvd td).Vh.dt = td.dt) :
    genVhDt (SVDBasis.generate_basis rsvd ssvd td n "random") = some .c64 ∧
    genVDt (SVDBasis.generate_basis rsvd ssvd td n "random") = some .c64 ∧
    genVhDt (SVDBasis.generate_basis rsvd ssvd td n "scipy") = some td.dt ∧
    genVDt (SVDBasis.generate_basis rsvd ssvd td n "scipy") = some td.dt ∧
    (td.dt = .c128 →
      genVhDt (SVDBasis.generate_basis rsvd ssvd td n "random") ≠
        genVhDt (SVDBasis.generate_basis rsvd ssvd td n "scipy")) := by
  have h1 : genVhDt (SVDBasis.generate_basis rsvd ssvd td n "random") =
      some .c64 := by
    simp [generate_basis_random, genVhDt]
  have h3 : genVhDt (SVDBasis.generate_basis rsvd ssvd td n "scipy") =
      some td.dt := by
    rw [generate_basis_scipy]
    by_cases hcond : n = 0 ∨ (ssvd td).Vh.c < n
    · simp [hcond, genVhDt, hdt]
    · simp [hcond, genVhDt, hdt]
  refine ⟨h1, ?_, h3, ?_, ?_⟩
  · simp [generate_basis_random, genVDt]
  · rw [generate_basis_scipy]
    by_cases hcond : n = 0 ∨ (ssvd td).Vh.c < n
    · simp [hcond, genVDt, hdt]
    · simp [hcond, genVDt, hdt]
  · intro hc
    rw [h1, h3, hc]
    simp

/-- Witness for C10 at a concrete complex128 2 x 3 matrix. -/
theorem claim_C10_witness :
    genVhDt (SVDBasis.generate_basis rsvd0 ssvd0 (mat0 2 3 .c128) 1 "random") =
      some .c64 ∧
    genVDt (SVDBasis.generate_basis rsvd0 ssvd0 (mat0 2 3 .c128) 1 "random") =
      some .c64 ∧
    genVhDt (SVDBasis.generate_basis rsvd0 ssvd0 (mat0 2 3 .c128) 1 "scipy") =
      some (mat0 2 3 .c128).dt ∧
    genVDt (SVDBasis.generate_basis rsvd0 ssvd0 (mat0 2 3 .c128) 1 "scipy") =
      some (mat0 2 3 .c128).dt ∧
    ((mat0 2 3 .c128).dt = .c128 →
      genVhDt (SVDBasis.generate_basis rsvd0 ssvd0 (mat0 2 3 .c128) 1 "random") ≠
        genVhDt (SVDBasis.generate_basis rsvd0 ssvd0 (mat0 2 3 .c128) 1 "scipy")) :=
  claim_C10 rsvd0 ssvd0 (mat0 2 3 .c128) 1 (by decide)

theorem fillLoop_zero {α : Type} (bs N lower : Nat) (rem : List α)
    (buf : List (Option α)) : fillLoop bs N 0 rem lower buf = buf := by
  cases rem <;> rfl

theorem fillLoop_nil {α : Type} (bs N fuel lower : Nat)
    (buf : List (Option α)) : fillLoop bs N (fuel + 1) [] lower buf = buf := rfl

theorem fillLoop_cons {α : Type} (bs N fuel lower : Nat) (x : α) (xs : List α)
    (buf : List (Option α)) :
    fillLoop bs N (fuel + 1) (x :: xs) lower buf =
      (if lower + min bs (N - lower) = N then
        writeRows buf lower (((x :: xs).take bs).take (min bs (N - lower)))
      else
        fillLoop bs N fuel ((x :: xs).drop bs) (lower + bs)
          (writeRows buf lower (((x :: xs).take bs).take (min bs (N - lower))))) :=
  rfl

/-- Effect of one slice assignment on a buffer whose first `lower` cells
hold the first `lower` source rows and whose tail is still uninitialized. -/
theorem writeRows_inv {α : Type} (src : List α) (N lower n' : Nat)
    (hlow : lower ≤ N) (hN : N ≤ src.length) (hn : n' ≤ N - lower) :
    writeRows ((src.take lower).map some ++ List.replicate (N - lower) none)
      lower ((src.drop lower).take n') =
    (src.take (lower + n')).map some ++
      List.replicate (N - (lower + n')) none := by
  have hA : ((src.take lower).map some).length = lower := by
    simp [List.length_take]
    omega
  have hrows : ((src.drop lower).take n').length = n' := by
    simp [List.length_take, List.length_drop]
    omega
  have h1 : ((src.take lower).map some ++
      List.replicate (N - lower) none).take lower = (src.take lower).map some :=
    List.take_left' hA
  have h2 : ((src.take lower).map some ++
        List.replicate (N - lower) none).drop (lower + n') =
      List.replicate (N - (lower + n')) none := by
    rw [List.drop_append_eq_append_drop, hA]
    have hAnil : ((src.take lower).map some).drop (lower + n') = [] :=
      List.drop_eq_nil_of_le (by rw [hA]; exact Nat.le_add_right lower n')
    rw [hAnil, Nat.add_sub_cancel_left, List.drop_replicate, Nat.sub_sub]
    rfl
  have h4 : (src.take lower).map some ++ ((src.drop lower).take n').map some =
      (src.take (lower + n')).map some := by
    rw [List.take_add, List.map_append]
  unfold writeRows
  rw [hrows, h1, h2, ← h4, List.append_assoc]

/-- Invariant proof of the accumulation loop: starting from a buffer whose
first `lower` cells already hold the first `lower` source rows, the loop
completes the buffer to exactly the first `N` source rows, provided the
source holds at least `N` rows and the batch size is positive. -/
theorem fillLoop_fill {α : Type} (bs N : Nat) (src : List α) (hbs : 1 ≤ bs)
    (hN : N ≤ src.length) :
    ∀ (fuel : Nat) (rem : List α) (lower : Nat),
      rem = src.drop lower → lower ≤ N → rem.length ≤ fuel →
      fillLoop bs N fuel rem lower
        ((src.take lower).map some ++ List.replicate (N - lower) none) =
      (src.take N).map some := by
  intro fuel
  induction fuel with
  | zero =>
    intro rem lower hrem hlow hfuel
    have hrem0 : rem = [] := List.eq_nil_of_length_eq_zero (Nat.le_zero.mp hfuel)
    have hsl : src.length ≤ lower := by
      have h1 := congrArg List.length hrem
      rw [hrem0] at h1
      simp [List.length_drop] at h1
      omega
    have hNl : N = lower := by omega
    rw [← hNl, fillLoop_zero]
    simp
  | succ fuel ih =>
    intro rem lower hrem hlow hfuel
    cases rem with
    | nil =>
      have hsl : src.length ≤ lower := by
        have h1 := congrArg List.length hrem
        simp [List.length_drop] at h1
        omega
      have hNl : N = lower := by omega
      rw [← hNl, fillLoop_nil]
      simp
    | cons x xs =>
      have hlenrem : (x :: xs).length = src.length - lower := by
        rw [hrem]
        exact List.length_drop lower src
      have hn'bs : min bs (N - lower) ≤ bs := Nat.min_le_left _ _
      have hn'N : min bs (N - lower) ≤ N - lower := Nat.min_le_right _ _
      have hrows_eq : ((x :: xs).take bs).take (min bs (N - lower)) =
          (src.drop lower).take (min bs (N - lower)) := by
        rw [List.take_take, Nat.min_eq_left hn'bs, hrem]
      rw [fillLoop_cons, hrows_eq,
        writeRows_inv src N lower (min bs (N - lower)) hlow hN hn'N]
      by_cases hif : lower + min bs (N - lower) = N
      · rw [if_pos hif, hif]
        simp
      · rw [if_neg hif]
        have hbslt : bs < N - lower := by
          rcases Nat.lt_or_ge bs (N - lower) with h | h
          · exact h
          · exact absurd (by rw [Nat.min_eq_right h]; omega) hif
        have hbseq : min bs (N - lower) = bs := Nat.min_eq_left (le_of_lt hbslt)
        rw [hbseq]
        exact ih ((x :: xs).drop bs) (lower + bs)
          (by rw [hrem]; exact List.drop_drop bs lower src)
          (by omega)
          (by rw [List.length_drop]; omega)

/-- C9: when the source supplies at least `N` rows per channel, each
channel's training buffer ends up holding exactly the first `N` source rows
(the loop copies `min(batch_size, N - already_filled)` rows per batch and
breaks as soon as `N` rows are collected), and on normal completion the
dataset's transform field equals the transform held before the call. -/
theorem claim_C9 {τ δ π ι α : Type} (st : WFDState τ δ π) (trb : Option τ)
    (srcs : ι → List α) (N bs : Nat) (k : ι) (hbs : 1 ≤ bs)
    (hsrc : N ≤ (srcs k).length) :
    (generate_and_save_reduced_basis st trb srcs N bs).2 k =
      ((srcs k).take N).map some ∧
    (generate_and_save_reduced_basis st trb srcs N bs).1.transform =
      st.transform := by
  constructor
  · show fillLoop bs N (srcs k).length (srcs k) 0 (List.replicate N none) = _
    have h := fillLoop_fill bs N (srcs k) hbs hsrc (srcs k).length (srcs k) 0
      (by simp) (Nat.zero_le _) le_rfl
    simpa using h
  · rfl

/-- Witness for C9 at the spec's scenario: `N = 20`, `batch_size = 7`,
a 25-row source: exactly the first 20 rows are collected and the transform
is restored. -/
theorem claim_C9_witness :
    (generate_and_save_reduced_basis stC1 (some ())
        (fun _ : Unit => List.range 25) 20 7).2 () =
      ((List.range 25).take 20).map some ∧
    (generate_and_save_reduced_basis stC1 (some ())
        (fun _ : Unit => List.range 25) 20 7).1.transform = stC1.transform :=
  claim_C9 stC1 (some ()) (fun _ : Unit => List.range 25) 20 7 ()
    (by decide) (by decide)
